import Mathlib

/-!
Verification of the HTML sanitizer in src/lib/sanitize.ts of the
webflow-cms-uploader repository.

The sanitizer has three parts, each embedded below:

* isSafeUrl, the URL safety validator (sanitize.ts lines 24-40);
* the tree-based strategy sanitizeNode (lines 53-125), which walks a parsed
  DOM tree; we embed the tree walk over an explicit node type, treating the
  platform HTML parser (DOMParser) as an environmental collaborator that
  produces the tree;
* the text-based strategy sanitizeHtmlRegex (lines 128-167), an ordered
  pipeline of JavaScript regular-expression replacements; each regex is
  embedded as a deterministic scanner over lists of characters that follows
  the JS regex engine semantics (leftmost match, greedy quantifiers; every
  pattern used by the code is deterministic except the anchor-rel rule,
  whose single backtracking dimension is modelled explicitly).

Machine strings are Lean String / List Char; all functions are executable.
-/

namespace Sanitize

/-- ASCII lower-casing of a string, modelling the JavaScript method
toLowerCase as used by the code on tag names, attribute names and
attribute values (the inputs of interest are ASCII). -/
def strLower (s : String) : String :=
  String.mk (s.data.map Char.toLower)

/-- Whitespace class of the JavaScript regex token backslash-s on the ASCII
range: space, tab, line feed, carriage return, vertical tab, form feed.
(The Unicode space separators also matched by JS are omitted; no claim
below exercises them.) -/
def isJsSpace (c : Char) : Bool :=
  c = ' ' || c = '\t' || c = '\n' || c = '\r' || c = '\x0b' || c = '\x0c'

/-- Word-character class of the JavaScript regex token backslash-w:
letters, digits, underscore. -/
def isWordChar (c : Char) : Bool :=
  ('a' ≤ c && c ≤ 'z') || ('A' ≤ c && c ≤ 'Z') || ('0' ≤ c && c ≤ '9') || c = '_'

/-- Case-insensitive prefix test: pat is given already lower-cased and is
compared against the lower-casing of the scanned characters. -/
def ciStarts : List Char → List Char → Bool
  | [], _ => true
  | _ :: _, [] => false
  | p :: ps, c :: cs => p = c.toLower && ciStarts ps cs

/-- Case-insensitive substring test (pat given lower-cased), modelling a
case-insensitive occurrence check. -/
def ciContains (pat : List Char) : List Char → Bool
  | [] => ciStarts pat []
  | c :: rest => ciStarts pat (c :: rest) || ciContains pat rest

/-- Exact (case-sensitive) substring test over character lists, modelling
the JavaScript String.includes method. -/
def listHasSeq (pat : List Char) : List Char → Bool
  | [] => pat.isPrefixOf []
  | c :: rest => pat.isPrefixOf (c :: rest) || listHasSeq pat rest

/-- The JavaScript test value.toLowerCase().includes(pat) for a string
value and an (already lower-case) pattern. -/
def lowerIncludes (v : String) (pat : String) : Bool :=
  listHasSeq pat.data (strLower v).data

/-- The JavaScript method s.startsWith(pat): exact character prefix. -/
def strStarts (s : String) (pat : String) : Bool :=
  pat.data.isPrefixOf s.data

/- ## Model of the platform URL constructor

The code calls the WHATWG URL constructor (new URL(url)) and reads back
parsed.protocol; the constructor throws on input that has no valid scheme,
and for the special schemes (http, https, ws, wss, ftp) also when the host
is empty.  This is a platform API, not repository code; the fragment
relevant to the sanitizer (does parsing succeed, and what is the protocol)
is modelled here: strip surrounding C0-control/space characters and all
tabs and newlines, require a scheme of the form alpha (alnum | + | - | .)*
followed by a colon, lower-case it, and for the special schemes require a
nonempty host.  The protocol field is the lower-cased scheme with a
trailing colon, as in the platform. -/

structure URLRec where
  protocol : String
deriving DecidableEq, Repr

/-- Characters stripped from both ends of URL input by the WHATWG parser:
C0 controls and space. -/
def isC0OrSpace (c : Char) : Bool :=
  c.toNat ≤ 0x20

/-- Characters removed everywhere from URL input by the WHATWG parser. -/
def isTabOrNewline (c : Char) : Bool :=
  c = '\t' || c = '\n' || c = '\r'

/-- WHATWG input preprocessing: trim C0/space from both ends, delete all
tabs and newlines. -/
def stripURLInput (l : List Char) : List Char :=
  (((l.dropWhile isC0OrSpace).reverse.dropWhile isC0OrSpace).reverse).filter
    (fun c => !(isTabOrNewline c))

/-- First character of a URL scheme: an ASCII letter. -/
def isSchemeStart (c : Char) : Bool :=
  ('a' ≤ c && c ≤ 'z') || ('A' ≤ c && c ≤ 'Z')

/-- Subsequent characters of a URL scheme. -/
def isSchemeChar (c : Char) : Bool :=
  isSchemeStart c || ('0' ≤ c && c ≤ '9') || c = '+' || c = '-' || c = '.'

/-- Scheme parsing: an ASCII letter, then scheme characters, then a colon;
returns the scheme characters and the remainder after the colon. -/
def parseScheme (l : List Char) : Option (List Char × List Char) :=
  match l with
  | [] => none
  | c :: rest =>
    if isSchemeStart c then
      let body := rest.takeWhile isSchemeChar
      match rest.drop body.length with
      | ':' :: tail => some (c :: body, tail)
      | _ => none
    else none

/-- The WHATWG special schemes whose URLs require a host (the file scheme
is special too but permits an empty host). -/
def specialSchemes : List String := ["http", "https", "ws", "wss", "ftp"]

/-- The host run of a special-scheme URL after the colon: skip the slash
run, then take up to a delimiter; the constructor requires it nonempty. -/
def hostRun (rest : List Char) : List Char :=
  (rest.dropWhile (fun c => c = '/' || c = '\\')).takeWhile
    (fun c => !(c = '/' || c = '?' || c = '#' || c = '\\' || c = ':'))

/-- Model of the platform URL constructor, restricted to the protocol
field; Except.error models the constructor throwing. -/
def jsURL (s : String) : Except Unit URLRec :=
  match parseScheme (stripURLInput s.data) with
  | none => Except.error ()
  | some (sch, rest) =>
    if specialSchemes.contains (String.mk (sch.map Char.toLower)) then
      if (hostRun rest).isEmpty then Except.error ()
      else Except.ok ⟨String.mk (sch.map Char.toLower) ++ ":"⟩
    else Except.ok ⟨String.mk (sch.map Char.toLower) ++ ":"⟩

/- ## URL safety validator (sanitize.ts lines 24-40) -/

/-- SAFE_URL_SCHEMES of sanitize.ts line 25; the literal "/" entry is in
the source set even though a parsed protocol can never equal it. -/
def SAFE_URL_SCHEMES : List String := ["http:", "https:", "mailto:", "/"]

/-- The relative-URL tests of sanitize.ts line 30. -/
def relStart (url : String) : Bool :=
  strStarts url "/" || strStarts url "#" || strStarts url "./" ||
    strStarts url "../"

/-- isSafeUrl of sanitize.ts lines 27-40.  The try block first runs the
relative-URL checks (which cannot throw), then parses; the catch clause
becomes the error branch of the parse. -/
def isSafeUrl (url : String) : Bool :=
  if relStart url then true
  else
    match jsURL url with
    | Except.ok parsed => SAFE_URL_SCHEMES.contains parsed.protocol
    | Except.error _ =>
      strStarts url "http://" || strStarts url "https://" ||
        strStarts url "mailto:"

/-- isSafeUrl with the exception flow made explicit: the whole try-block
body is Except-valued (only the URL constructor can throw inside it) and
the catch clause maps every error to the literal scheme check.  Used to
state that no exception escapes (claim C9). -/
def isSafeUrlTry (url : String) : Except Unit Bool :=
  if relStart url then Except.ok true
  else
    match jsURL url with
    | Except.ok parsed => Except.ok (SAFE_URL_SCHEMES.contains parsed.protocol)
    | Except.error e => Except.error e

/-- The try/catch of isSafeUrl: a thrown error is always handled. -/
def isSafeUrlE (url : String) : Except Unit Bool :=
  match isSafeUrlTry url with
  | Except.ok b => Except.ok b
  | Except.error _ =>
    Except.ok (strStarts url "http://" || strStarts url "https://" ||
      strStarts url "mailto:")

/- ## Allowlist tables (sanitize.ts lines 4-22) -/

/-- ALLOWED_TAGS of sanitize.ts lines 4-14 (a JS Set; membership is the
only operation used, so a list with contains is an exact model). -/
def ALLOWED_TAGS : List String :=
  ["h1", "h2", "h3", "h4", "h5", "h6",
   "p", "br", "hr",
   "strong", "b", "em", "i", "u", "s", "strike",
   "a", "img",
   "ul", "ol", "li",
   "blockquote", "pre", "code",
   "table", "thead", "tbody", "tr", "th", "td",
   "div", "span",
   "figure", "figcaption"]

/-- The per-tag entries of ALLOWED_ATTRIBUTES (sanitize.ts lines 16-22);
a missing key yields the empty set, as in the source lookup with
fallback. -/
def tagAttrs (tag : String) : List String :=
  if tag = "a" then ["href", "title", "target", "rel"]
  else if tag = "img" then ["src", "alt", "title", "width", "height"]
  else if tag = "td" then ["colspan", "rowspan"]
  else if tag = "th" then ["colspan", "rowspan", "scope"]
  else []

/-- The wildcard entry of ALLOWED_ATTRIBUTES. -/
def wildcardAttrs : List String := ["class", "id"]

/-- The permitted attribute set computed in sanitize.ts lines 75-80: the
union of the tag-specific and the wildcard entries. -/
def allowedAttrsFor (tag : String) : List String :=
  tagAttrs tag ++ wildcardAttrs

/- ## Tree-based strategy (sanitize.ts lines 53-125)

The DOM tree is embedded as HNode: elements carry the tag name (as
reported by tagName, before the lower-casing the code applies), the
ordered attribute list, and the ordered children.  The platform parser
that builds the tree from the input string is environmental; claims about
the tree strategy are stated on trees, which are the parsed form. -/

inductive HNode where
  | element : String → List (String × String) → List HNode → HNode
  | text : String → HNode
  | comment : String → HNode

/-- The attribute loop of sanitize.ts lines 82-96, over the snapshot of
the attributes of the element: an attribute not in the permitted set is removed
(continue); otherwise it is removed when it is href or src with an unsafe
value, and removed when its lower-cased value contains the substring
javascript: (in the source these last two are two sequential removals
without a continue between them; removing an already-removed attribute is
a no-op, so the net effect is the chain below). -/
def attrPass (allowed : List String) : List (String × String) → List (String × String)
  | [] => []
  | (n, v) :: rest =>
    if !(allowed.contains (strLower n)) then attrPass allowed rest
    else if (n = "href" || n = "src") && !(isSafeUrl v) then attrPass allowed rest
    else if lowerIncludes v "javascript:" then attrPass allowed rest
    else (n, v) :: attrPass allowed rest

/-- DOM Element.setAttribute on the attribute list: replace the value of
the first attribute with the given name, or append the pair at the end
when the name is absent. -/
def setAttr : List (String × String) → String → String → List (String × String)
  | [], n, v => [(n, v)]
  | (m, w) :: rest, n, v =>
    if m = n then (m, v) :: rest else (m, w) :: setAttr rest n v

/-- DOM Element.getAttribute on the attribute list: value of the first
attribute with the given name. -/
def getAttr : List (String × String) → String → Option String
  | [], _ => none
  | (m, w) :: rest, n => if m = n then some w else getAttr rest n

mutual
/-- The per-child action of sanitizeNode (sanitize.ts lines 59-125),
expressed as the list of nodes that replace the child in the parent once
the deferred removals of lines 114-124 have run:

* a comment child is marked for removal and, having no children, vanishes;
* an element child whose lower-cased tag is not allowlisted is marked for
  removal and the removal step splices its children (exactly as they were,
  since the loop skipped them with continue) into the parent in its place;
* an allowed element child has its attributes cleaned, a rel attribute
  force-set when the tag is a, and its own children sanitized recursively,
  and stays in place;
* a text child is untouched. -/
def sanitizeNode1 : HNode → List HNode
  | .text s => [.text s]
  | .comment _ => []
  | .element tag attrs kids =>
    let t := strLower tag
    if ALLOWED_TAGS.contains t then
      let cleaned := attrPass (allowedAttrsFor t) attrs
      let hardened :=
        if t = "a" then setAttr cleaned "rel" "noopener noreferrer" else cleaned
      [.element tag hardened (sanitizeList kids)]
    else kids

/-- sanitizeNode applied to a node with the given children: the loop of
sanitize.ts lines 62-112 over the snapshot of child nodes followed by the
removal-with-splice loop of lines 115-124. -/
def sanitizeList : List HNode → List HNode
  | [] => []
  | n :: rest => sanitizeNode1 n ++ sanitizeList rest
end

/- ## Serialization (the innerHTML read-back of sanitize.ts line 56)

Minimal faithful model of the HTML fragment serialization algorithm for
the node kinds produced above: text escapes ampersand and angle brackets,
attribute values escape ampersand and double quote, void elements have no
end tag, element tags and attribute names are emitted as stored (the
parser stores them lower-cased for HTML documents). -/

/-- The HTML void elements among the allowlisted tags. -/
def voidTags : List String := ["br", "hr", "img"]

/-- Text-node escaping used by the fragment serializer. -/
def escapeText (s : String) : String :=
  String.mk (s.data.flatMap (fun c =>
    if c = '&' then "&amp;".data
    else if c = '<' then "&lt;".data
    else if c = '>' then "&gt;".data
    else [c]))

/-- Attribute-value escaping used by the fragment serializer. -/
def escapeAttr (s : String) : String :=
  String.mk (s.data.flatMap (fun c =>
    if c = '&' then "&amp;".data
    else if c = '"' then "&quot;".data
    else [c]))

/-- Serialization of one attribute. -/
def serializeAttr (a : String × String) : String :=
  " " ++ a.1 ++ "=\"" ++ escapeAttr a.2 ++ "\""

mutual
/-- Fragment serialization of a single node. -/
def serializeNode : HNode → String
  | .text s => escapeText s
  | .comment s => "<!--" ++ s ++ "-->"
  | .element tag attrs kids =>
    let opening := "<" ++ tag ++ String.join (attrs.map serializeAttr) ++ ">"
    if voidTags.contains tag then opening
    else opening ++ serializeList kids ++ "</" ++ tag ++ ">"

/-- Fragment serialization of a node list (the innerHTML of a parent
holding these children). -/
def serializeList : List HNode → String
  | [] => ""
  | n :: rest => serializeNode n ++ serializeList rest
end

/- ## Text-based strategy (sanitize.ts lines 128-167)

Each replace call of sanitizeHtmlRegex is embedded as a scanner over the
character list: a matcher tries to match the pattern at the current
position and yields the replacement text with the remainder after the
matched span; the driver walks left to right, emitting unmatched
characters, exactly as a global JS regex replace does (no pattern below
can match the empty span, so the engine never bumps past a zero-length
match).  Patterns are stored lower-cased; all the regexes carry the i
flag.  The driver carries fuel; every match consumes at least one
character, so fuel equal to the input length is always sufficient, and
the fuel-zero branch is unreachable on the actual calls. -/

/-- Generic global-replace driver over a position matcher. -/
def scanRepl (m : List Char → Option (List Char × List Char)) :
    Nat → List Char → List Char
  | 0, cs => cs
  | _ + 1, [] => []
  | fuel + 1, c :: rest =>
    match m (c :: rest) with
    | some (rep, after) => rep ++ scanRepl m fuel after
    | none => c :: scanRepl m fuel rest

/-- Runs a matcher as a global replace over a whole list. -/
def runRepl (m : List Char → Option (List Char × List Char))
    (l : List Char) : List Char :=
  scanRepl m l.length l

/-- The regex word-boundary test placed after a literal ending in a word
character: it holds unless the next character is a word character. -/
def noWordNext (l : List Char) : Bool :=
  match l with
  | [] => true
  | c :: _ => !(isWordChar c)

/-- The tail loop of the script/style block patterns of sanitize.ts lines
131 and 134: positioned at the next angle bracket (or the end), either
the close tag (pat, lower-cased, the part after the bracket) follows and
the match ends after it, or the bracket is consumed together with the
following non-bracket run and scanning continues.  Fuel decreases on each
step; a step consumes at least the bracket, so fuel equal to the scanned
length is sufficient. -/
def scanCloseF (pat : List Char) : Nat → List Char → Option (List Char)
  | 0, _ => none
  | _ + 1, [] => none
  | fuel + 1, c :: rest =>
    if c = '<' then
      if ciStarts pat rest then some (rest.drop pat.length)
      else scanCloseF pat fuel (rest.dropWhile (fun d => d != '<'))
    else none

/-- Matcher for the block patterns of sanitize.ts lines 131 and 134
(script and style): the open literal, a word boundary, a run of
non-bracket characters, then bracketed runs until the close literal. -/
def mBlock (openPat closePat : List Char) (cs : List Char) :
    Option (List Char × List Char) :=
  if ciStarts openPat cs then
    let r := cs.drop openPat.length
    if noWordNext r then
      let r2 := r.dropWhile (fun d => d != '<')
      match scanCloseF closePat r2.length r2 with
      | some after => some ([], after)
      | none => none
    else none
  else none

/-- The script-block matcher of sanitize.ts line 131. -/
def mScript : List Char → Option (List Char × List Char) :=
  mBlock "<script".data "/script>".data

/-- The style-block matcher of sanitize.ts line 134. -/
def mStyle : List Char → Option (List Char × List Char) :=
  mBlock "<style".data "/style>".data

/-- Matcher for the quoted event-handler pattern of sanitize.ts line 137:
whitespace, the letters on, a word run, optional space around an equals
sign, then a value delimited by quote characters (the closing delimiter
may be either quote kind, as in the source character class). -/
def mOnQuoted (cs : List Char) : Option (List Char × List Char) :=
  let sp := cs.takeWhile isJsSpace
  if sp.isEmpty then none
  else
    let r := cs.drop sp.length
    if ciStarts "on".data r then
      let w := (r.drop 2).takeWhile isWordChar
      if w.isEmpty then none
      else
        let r2 := (r.drop 2).drop w.length
        match r2.dropWhile isJsSpace with
        | '=' :: r3 =>
          match r3.dropWhile isJsSpace with
          | q :: r4 =>
            if q = '"' || q = '\'' then
              let v := r4.takeWhile (fun d => d != '"' && d != '\'')
              match r4.drop v.length with
              | q2 :: r5 =>
                if q2 = '"' || q2 = '\'' then some ([], r5) else none
              | [] => none
            else none
          | [] => none
        | _ => none
    else none

/-- Matcher for the unquoted event-handler pattern of sanitize.ts line
138: as above but the value is a nonempty run of characters that are
neither whitespace nor a closing bracket. -/
def mOnUnquoted (cs : List Char) : Option (List Char × List Char) :=
  let sp := cs.takeWhile isJsSpace
  if sp.isEmpty then none
  else
    let r := cs.drop sp.length
    if ciStarts "on".data r then
      let w := (r.drop 2).takeWhile isWordChar
      if w.isEmpty then none
      else
        let r2 := (r.drop 2).drop w.length
        match r2.dropWhile isJsSpace with
        | '=' :: r3 =>
          let r4 := r3.dropWhile isJsSpace
          let v := r4.takeWhile (fun d => !(isJsSpace d) && d != '>')
          if v.isEmpty then none else some ([], r4.drop v.length)
        | _ => none
    else none

/-- Matcher for the javascript scheme pattern of sanitize.ts line 141:
the literal, optional whitespace, a colon. -/
def mJs (cs : List Char) : Option (List Char × List Char) :=
  if ciStarts "javascript".data cs then
    match (cs.drop 10).dropWhile isJsSpace with
    | ':' :: rest => some ([], rest)
    | _ => none
  else none

/-- Matcher for the data URI pattern of sanitize.ts line 144: the
literal, optional whitespace, a colon, then a nonempty run of characters
that are not quotes, whitespace or a closing bracket. -/
def mData (cs : List Char) : Option (List Char × List Char) :=
  if ciStarts "data".data cs then
    match (cs.drop 4).dropWhile isJsSpace with
    | ':' :: rest =>
      let v := rest.takeWhile
        (fun d => d != '"' && d != '\'' && !(isJsSpace d) && d != '>')
      if v.isEmpty then none else some ([], rest.drop v.length)
    | _ => none
  else none

/-- Matcher for an opening-tag pattern with a given tag name, as in
sanitize.ts lines 147, 151, 154, 157: bracket, the name, a word
boundary, a run of non-closing-bracket characters, the closing bracket. -/
def mOpenTag (t : List Char) (cs : List Char) :
    Option (List Char × List Char) :=
  match cs with
  | '<' :: r =>
    if ciStarts t r && noWordNext (r.drop t.length) then
      let body := (r.drop t.length).takeWhile (fun d => d != '>')
      match (r.drop t.length).drop body.length with
      | '>' :: rest => some ([], rest)
      | _ => none
    else none
  | _ => none

/-- The tag alternatives of sanitize.ts lines 147-148. -/
def embedTags : List (List Char) :=
  ["iframe".data, "object".data, "embed".data, "form".data, "input".data,
   "button".data]

/-- Matcher for the opening-tag alternation of sanitize.ts line 147 (the
alternatives share no prefixes, so at most one can apply). -/
def mEmbedOpen (cs : List Char) : Option (List Char × List Char) :=
  match mOpenTag "iframe".data cs with
  | some x => some x
  | none =>
  match mOpenTag "object".data cs with
  | some x => some x
  | none =>
  match mOpenTag "embed".data cs with
  | some x => some x
  | none =>
  match mOpenTag "form".data cs with
  | some x => some x
  | none =>
  match mOpenTag "input".data cs with
  | some x => some x
  | none => mOpenTag "button".data cs

/-- Matcher for one closing-tag literal of sanitize.ts line 148: bracket,
slash, the name, the closing bracket, nothing between. -/
def mCloseTag (t : List Char) (cs : List Char) :
    Option (List Char × List Char) :=
  match cs with
  | '<' :: '/' :: r =>
    if ciStarts t r then
      match r.drop t.length with
      | '>' :: rest => some ([], rest)
      | _ => none
    else none
  | _ => none

/-- Matcher for the closing-tag alternation of sanitize.ts line 148. -/
def mEmbedClose (cs : List Char) : Option (List Char × List Char) :=
  match mCloseTag "iframe".data cs with
  | some x => some x
  | none =>
  match mCloseTag "object".data cs with
  | some x => some x
  | none =>
  match mCloseTag "embed".data cs with
  | some x => some x
  | none =>
  match mCloseTag "form".data cs with
  | some x => some x
  | none =>
  match mCloseTag "input".data cs with
  | some x => some x
  | none => mCloseTag "button".data cs

/-- One backtracking attempt of the anchor pattern of sanitize.ts lines
161-164, with the leading non-bracket run fixed at k characters: the
group continues with the href literal, optional space around the equals
sign, a quote, a run of non-quote characters, a quote, then non-bracket
characters up to the closing bracket.  Returns the remainder after the
closing bracket. -/
def tryHrefAt (after : List Char) (k : Nat) : Option (List Char) :=
  let kRun := after.take k
  if kRun.length = k && kRun.all (fun d => d != '>') then
    let rest := after.drop k
    if ciStarts "href".data rest then
      match (rest.drop 4).dropWhile isJsSpace with
      | '=' :: r2 =>
        match r2.dropWhile isJsSpace with
        | q :: r3 =>
          if q = '"' || q = '\'' then
            let v := r3.takeWhile (fun d => d != '"' && d != '\'')
            match r3.drop v.length with
            | q2 :: r4 =>
              if q2 = '"' || q2 = '\'' then
                let t := r4.takeWhile (fun d => d != '>')
                match r4.drop t.length with
                | '>' :: rem => some rem
                | _ => none
              else none
            | [] => none
          else none
        | [] => none
      | _ => none
    else none
  else none

/-- Greedy backtracking over the length of the leading non-bracket run of
the anchor pattern: attempts from the longest run down, as the JS engine
does for a greedy star followed by a literal. -/
def findHref (after : List Char) : Nat → Option (List Char)
  | 0 => tryHrefAt after 0
  | k + 1 =>
    match tryHrefAt after (k + 1) with
    | some r => some r
    | none => findHref after k

/-- Matcher for the anchor hardening rule of sanitize.ts lines 160-164:
bracket, the letter a, mandatory whitespace, then the captured group (a
non-bracket run, the href literal, an equals sign with optional space, a
quoted value, a non-bracket run) and the closing bracket; the whole tag
is rewritten with the group re-emitted and the rel attribute appended
after it. -/
def mARel (cs : List Char) : Option (List Char × List Char) :=
  match cs with
  | '<' :: c :: rest =>
    if c.toLower = 'a' then
      let sp := rest.takeWhile isJsSpace
      if sp.isEmpty then none
      else
        let after := rest.drop sp.length
        let kmax := (after.takeWhile (fun d => d != '>')).length
        match findHref after kmax with
        | some rem =>
          let group := after.take (after.length - rem.length - 1)
          some ("<a ".data ++ group ++ " rel=\"noopener noreferrer\">".data,
            rem)
        | none => none
    else none
  | _ => none

/-- The first pipeline stage of sanitizeHtmlRegex (script blocks,
sanitize.ts line 131). -/
def stepScript (l : List Char) : List Char := runRepl mScript l

/-- Pipeline stages 2 to 12 of sanitizeHtmlRegex, in source order
(sanitize.ts lines 134-164): style blocks, quoted handlers, unquoted
handlers, the javascript scheme, data URIs, embed-like opening and
closing tags, base, meta and link tags, anchor hardening. -/
def regexRest (l : List Char) : List Char :=
  let s2 := runRepl mStyle l
  let s3 := runRepl mOnQuoted s2
  let s4 := runRepl mOnUnquoted s3
  let s5 := runRepl mJs s4
  let s6 := runRepl mData s5
  let s7 := runRepl mEmbedOpen s6
  let s8 := runRepl mEmbedClose s7
  let s9 := runRepl (mOpenTag "base".data) s8
  let s10 := runRepl (mOpenTag "meta".data) s9
  let s11 := runRepl (mOpenTag "link".data) s10
  runRepl mARel s11

/-- sanitizeHtmlRegex of sanitize.ts lines 128-167: the full replacement
pipeline. -/
def sanitizeHtmlRegex (html : String) : String :=
  String.mk (regexRest (stepScript html.data))

/- ## Exception propagation through the tree strategy

The only operation in the sanitizer that can throw is the URL constructor
inside isSafeUrl, and its try/catch is local to isSafeUrl.  To state that
no exception escapes sanitizeHtml (claim C9), the tree walk is re-run
with the exception channel threaded outward: a hypothetical uncaught
error anywhere below would surface as an error of the whole walk. -/

/-- The attribute loop with the exception flow of its isSafeUrl calls
made explicit; the URL check is only evaluated for href and src, as in
the source. -/
def attrPassE (allowed : List String) :
    List (String × String) → Except Unit (List (String × String))
  | [] => Except.ok []
  | (n, v) :: rest =>
    if !(allowed.contains (strLower n)) then attrPassE allowed rest
    else if n = "href" || n = "src" then
      match isSafeUrlE v with
      | Except.error e => Except.error e
      | Except.ok safe =>
        if !safe then attrPassE allowed rest
        else if lowerIncludes v "javascript:" then attrPassE allowed rest
        else
          match attrPassE allowed rest with
          | Except.error e => Except.error e
          | Except.ok tail => Except.ok ((n, v) :: tail)
    else if lowerIncludes v "javascript:" then attrPassE allowed rest
    else
      match attrPassE allowed rest with
      | Except.error e => Except.error e
      | Except.ok tail => Except.ok ((n, v) :: tail)

mutual
/-- sanitizeNode1 with the exception channel threaded outward. -/
def sanitizeNode1E : HNode → Except Unit (List HNode)
  | .text s => Except.ok [.text s]
  | .comment _ => Except.ok []
  | .element tag attrs kids =>
    let t := strLower tag
    if ALLOWED_TAGS.contains t then
      match attrPassE (allowedAttrsFor t) attrs with
      | Except.error e => Except.error e
      | Except.ok cleaned =>
        let hardened :=
          if t = "a" then setAttr cleaned "rel" "noopener noreferrer"
          else cleaned
        match sanitizeListE kids with
        | Except.error e => Except.error e
        | Except.ok ks => Except.ok [.element tag hardened ks]
    else Except.ok kids

/-- sanitizeList with the exception channel threaded outward. -/
def sanitizeListE : List HNode → Except Unit (List HNode)
  | [] => Except.ok []
  | n :: rest =>
    match sanitizeNode1E n with
    | Except.error e => Except.error e
    | Except.ok hd =>
      match sanitizeListE rest with
      | Except.error e => Except.error e
      | Except.ok tl => Except.ok (hd ++ tl)
end

/- ## Lemmas on exception handling -/

/-- The catch inside isSafeUrl handles every throw of the URL
constructor: the exception-explicit version always returns, with the
value computed by the plain function. -/
theorem isSafeUrlE_eq (u : String) : isSafeUrlE u = Except.ok (isSafeUrl u) := by
  unfold isSafeUrlE isSafeUrlTry isSafeUrl
  by_cases h : relStart u = true
  · simp [h]
  · cases hj : jsURL u <;> simp [h, hj]

/-- The attribute loop never lets an exception escape, and computes what
the plain loop computes. -/
theorem attrPassE_eq (allowed : List String) (l : List (String × String)) :
    attrPassE allowed l = Except.ok (attrPass allowed l) := by
  induction l with
  | nil => rfl
  | cons a rest ih =>
    obtain ⟨n, v⟩ := a
    unfold attrPassE attrPass
    by_cases hall : strLower n ∈ allowed
    · by_cases hns : (n = "href" || n = "src") = true
      · by_cases hsafe : isSafeUrl v = true
        · by_cases hjs : lowerIncludes v "javascript:" = true
          · simp [hall, hns, hsafe, hjs, isSafeUrlE_eq, ih]
          · simp [hall, hns, hsafe, hjs, isSafeUrlE_eq, ih]
        · simp [hall, hns, hsafe, isSafeUrlE_eq, ih]
      · by_cases hjs : lowerIncludes v "javascript:" = true
        · simp [hall, hns, hjs, ih]
        · simp [hall, hns, hjs, ih]
    · simp [hall, ih]

mutual
/-- No exception escapes the walk of a single child. -/
theorem sanitizeNode1E_eq : (n : HNode) →
    sanitizeNode1E n = Except.ok (sanitizeNode1 n)
  | .text s => rfl
  | .comment s => rfl
  | .element tag attrs kids => by
    unfold sanitizeNode1E sanitizeNode1
    by_cases h : strLower tag ∈ ALLOWED_TAGS
    · simp [h, attrPassE_eq, sanitizeListE_eq kids]
    · simp [h]

/-- No exception escapes the walk of a child list. -/
theorem sanitizeListE_eq : (l : List HNode) →
    sanitizeListE l = Except.ok (sanitizeList l)
  | [] => rfl
  | n :: rest => by
    unfold sanitizeListE sanitizeList
    simp [sanitizeNode1E_eq n, sanitizeListE_eq rest]
end

/-- C9: sanitizeHtml is total: no exception propagates to the caller in
either strategy branch.  The only throwing operation in the source is the
URL constructor; its try/catch is local to isSafeUrl, so the
exception-explicit versions of the URL validator and of the tree walk
always return Except.ok, and the text strategy is a composition of total
string rewrites, returning a string on every input. -/
theorem sanitizeHtml_total (u : String) (t : List HNode) (h : String) :
    isSafeUrlE u = Except.ok (isSafeUrl u) ∧
    sanitizeListE t = Except.ok (sanitizeList t) ∧
    ∃ out : String, sanitizeHtmlRegex h = out :=
  ⟨isSafeUrlE_eq u, sanitizeListE_eq t, ⟨sanitizeHtmlRegex h, rfl⟩⟩

/- ## Lemmas on the URL validator -/

/-- A string with a colon appended is never the one-character string
containing a slash. -/
theorem append_colon_ne_slash (s : String) : s ++ ":" ≠ "/" := by
  intro h
  have h3 := congrArg String.data h
  rw [String.data_append] at h3
  simp only [show (":" : String).data = [':'] from rfl,
    show ("/" : String).data = ['/'] from rfl] at h3
  rcases hd : s.data with _ | ⟨a, t⟩ <;> rw [hd] at h3 <;> simp at h3

/-- A protocol produced by the URL constructor is never the literal
slash entry of SAFE_URL_SCHEMES. -/
theorem jsURL_protocol_ne_slash (u : String) (r : URLRec)
    (h : jsURL u = Except.ok r) : r.protocol ≠ "/" := by
  unfold jsURL at h
  cases hp : parseScheme (stripURLInput u.data) with
  | none => rw [hp] at h; exact absurd h (by simp)
  | some pr =>
    obtain ⟨sch, rest⟩ := pr
    rw [hp] at h
    dsimp only at h
    by_cases hs : specialSchemes.contains (String.mk (sch.map Char.toLower)) = true
    · by_cases hh : (hostRun rest).isEmpty = true
      · rw [if_pos hs, if_pos hh] at h
        exact absurd h (by simp)
      · rw [if_pos hs, if_neg hh] at h
        cases h
        exact append_colon_ne_slash _
    · rw [if_neg hs] at h
      cases h
      exact append_colon_ne_slash _

/-- C4: isSafeUrl returns true exactly when the input starts with one of
the relative prefixes slash, hash, dot-slash, dot-dot-slash; or parses as
an absolute URL whose protocol is http:, https: or mailto:; or fails to
parse but literally starts with http://, https:// or mailto:.  Everything
else yields false. -/
theorem isSafeUrl_spec (url : String) :
    isSafeUrl url = true ↔
      ((strStarts url "/" = true ∨ strStarts url "#" = true ∨
        strStarts url "./" = true ∨ strStarts url "../" = true) ∨
      (∃ r, jsURL url = Except.ok r ∧
        (r.protocol = "http:" ∨ r.protocol = "https:" ∨
          r.protocol = "mailto:")) ∨
      (jsURL url = Except.error () ∧
        (strStarts url "http://" = true ∨ strStarts url "https://" = true ∨
          strStarts url "mailto:" = true))) := by
  cases hrel : relStart url with
  | true =>
    have hr : strStarts url "/" = true ∨ strStarts url "#" = true ∨
        strStarts url "./" = true ∨ strStarts url "../" = true := by
      have h2 := hrel
      simp only [relStart, Bool.or_eq_true] at h2
      tauto
    have hval : isSafeUrl url = true := by
      unfold isSafeUrl
      simp [hrel]
    rw [hval]
    exact ⟨fun _ => Or.inl hr, fun _ => rfl⟩
  | false =>
    have hr : ¬(strStarts url "/" = true ∨ strStarts url "#" = true ∨
        strStarts url "./" = true ∨ strStarts url "../" = true) := by
      intro hc
      have h2 : relStart url = true := by
        unfold relStart
        rcases hc with h1 | h1 | h1 | h1 <;> simp [h1]
      rw [hrel] at h2
      cases h2
    cases hj : jsURL url with
    | ok r =>
      have hne := jsURL_protocol_ne_slash url r hj
      have hval : isSafeUrl url = SAFE_URL_SCHEMES.contains r.protocol := by
        unfold isSafeUrl
        simp [hrel, hj]
      have hmem : SAFE_URL_SCHEMES.contains r.protocol = true ↔
          (r.protocol = "http:" ∨ r.protocol = "https:" ∨
            r.protocol = "mailto:" ∨ r.protocol = "/") := by
        simp [SAFE_URL_SCHEMES]
      rw [hval]
      constructor
      · intro hc
        rcases hmem.mp hc with h1 | h1 | h1 | h1
        · exact Or.inr (Or.inl ⟨r, rfl, Or.inl h1⟩)
        · exact Or.inr (Or.inl ⟨r, rfl, Or.inr (Or.inl h1)⟩)
        · exact Or.inr (Or.inl ⟨r, rfl, Or.inr (Or.inr h1)⟩)
        · exact absurd h1 hne
      · intro hd
        rcases hd with h1 | ⟨r2, hr2, hp2⟩ | ⟨hbad, _⟩
        · exact absurd h1 hr
        · cases hr2
          exact hmem.mpr (by tauto)
        · exact absurd hbad (by simp)
    | error e =>
      cases e
      have hval : isSafeUrl url = (strStarts url "http://" ||
          strStarts url "https://" || strStarts url "mailto:") := by
        unfold isSafeUrl
        simp [hrel, hj]
      rw [hval]
      constructor
      · intro hc
        simp only [Bool.or_eq_true] at hc
        exact Or.inr (Or.inr ⟨rfl, by tauto⟩)
      · intro hd
        rcases hd with h1 | ⟨r2, hr2, _⟩ | ⟨_, h3⟩
        · exact absurd h1 hr
        · exact absurd hr2 (by simp)
        · simp only [Bool.or_eq_true]
          tauto

/- ## Lemmas on the attribute loop -/

/-- The attribute loop is the filter keeping exactly the attributes whose
lower-cased name is permitted, whose value passes the URL check when the
name is href or src, and whose lower-cased value does not contain the
substring javascript:. -/
theorem attrPass_eq_filter (allowed : List String)
    (l : List (String × String)) :
    attrPass allowed l = l.filter (fun a =>
      allowed.contains (strLower a.1) &&
      ((!(a.1 = "href" || a.1 = "src")) || isSafeUrl a.2) &&
      !(lowerIncludes a.2 "javascript:")) := by
  induction l with
  | nil => rfl
  | cons a rest ih =>
    obtain ⟨n, v⟩ := a
    unfold attrPass
    by_cases hall : strLower n ∈ allowed
    · by_cases hns : (n = "href" || n = "src") = true
      · by_cases hsafe : isSafeUrl v = true
        · by_cases hjs : lowerIncludes v "javascript:" = true
          · simp [List.filter_cons, hall, hns, hsafe, hjs, ih]
          · simp [List.filter_cons, hall, hns, hsafe, hjs, ih]
        · simp only [List.filter_cons, hall, hns, hsafe, ih]
          simp [hall, hns, hsafe]
      · by_cases hjs : lowerIncludes v "javascript:" = true
        · simp [List.filter_cons, hall, hns, hjs, ih]
        · simp only [attrPass, List.filter_cons, hall, hns, hjs, ih]
          simp [hall, hjs]
    · simp [List.filter_cons, hall, ih]

/-- C8: on an allowed element the tree strategy removes exactly the
attributes with a non-permitted name (relative to the union of the
tag-specific and the wildcard allowlists), the href and src attributes
with unsafe values, and any attribute whose value contains javascript:
case-insensitively; every other attribute is kept with its value
unchanged.  In particular an img keeps a safe src and loses onerror. -/
theorem tree_attribute_rules (tag : String) (attrs : List (String × String)) :
    attrPass (allowedAttrsFor tag) attrs = attrs.filter (fun a =>
      (allowedAttrsFor tag).contains (strLower a.1) &&
      ((!(a.1 = "href" || a.1 = "src")) || isSafeUrl a.2) &&
      !(lowerIncludes a.2 "javascript:")) ∧
    attrPass (allowedAttrsFor "img")
        [("src", "https://x.com/a.png"), ("onerror", "alert(1)")] =
      [("src", "https://x.com/a.png")] :=
  ⟨attrPass_eq_filter _ _, rfl⟩

/- ## Claim C1: script and style content -/

/-- C1: evaluation at the failing inputs.  In the tree strategy a script
element is handled like every other disallowed tag: the wrapper is
dropped and its text content is spliced into the parent, so the payload
alert(1) survives in the serialized output, contradicting the claim that
script content never survives.  In the text strategy the claimed
wrapper-drop behaviour for other disallowed tags does not exist either:
an unknown tag passes through the pipeline wholly untouched, wrapper
included.  The one half that does hold is the text strategy removing a
terminated script block with its content. -/
theorem c1_script_style_divergence :
    serializeList (sanitizeList
        [.element "div" [] [.element "script" [] [.text "alert(1)"]]]) =
      "<div>alert(1)</div>" ∧
    sanitizeHtmlRegex "<div><unknowntag>hello</unknowntag></div>" =
      "<div><unknowntag>hello</unknowntag></div>" ∧
    sanitizeHtmlRegex "<script>alert(1)</script>" = "" :=
  ⟨rfl, by decide, by decide⟩

/- ## Claim C2: idempotence -/

/-- C2: evaluation at the failing input.  The javascript-scheme removal
of the text strategy can reassemble the very token it removes: one pass
over the input turns it into the string javascript: followed by nothing,
and a second pass removes that, so sanitize of sanitize differs from
sanitize, refuting idempotence. -/
theorem c2_idempotence_fails :
    sanitizeHtmlRegex "javajavascript:script:" = "javascript:" ∧
    sanitizeHtmlRegex (sanitizeHtmlRegex "javajavascript:script:") = "" ∧
    sanitizeHtmlRegex (sanitizeHtmlRegex "javajavascript:script:") ≠
      sanitizeHtmlRegex "javajavascript:script:" :=
  ⟨by decide, by decide, by decide⟩

/- ## Claim C3: splicing of a removed element -/

/-- C3 counterexample: an allowed img element with a disallowed onerror
attribute, nested inside a disallowed wrapper, is spliced into the parent
with the onerror attribute intact, although the attribute cleaning step,
had it run on the img, would have removed that attribute; so the spliced
children are not processed in the same sanitize call. -/
theorem c3_splice_no_reprocess_cex :
    sanitizeList
        [.element "custom" [] [.element "img" [("onerror", "alert(1)")] []]] =
      [.element "img" [("onerror", "alert(1)")] []] ∧
    attrPass (allowedAttrsFor "img") [("onerror", "alert(1)")] = [] :=
  ⟨rfl, rfl⟩

/-- The walk distributes over concatenation of sibling lists. -/
theorem sanitizeList_append (xs ys : List HNode) :
    sanitizeList (xs ++ ys) = sanitizeList xs ++ sanitizeList ys := by
  induction xs with
  | nil => rfl
  | cons n rest ih => simp [sanitizeList, ih]

/-- C3 amended: when a disallowed element is removed, its children are
spliced into the parent at the same position exactly as they were; they
receive no tag allowlisting and no attribute cleaning in this sanitize
call (they would only be handled by a further invocation of the
sanitizer). -/
theorem c3_splice_verbatim (xs ys : List HNode) (tag : String)
    (attrs : List (String × String)) (kids : List HNode)
    (h : strLower tag ∉ ALLOWED_TAGS) :
    sanitizeList (xs ++ .element tag attrs kids :: ys) =
      sanitizeList xs ++ kids ++ sanitizeList ys := by
  rw [sanitizeList_append]
  simp [sanitizeList, sanitizeNode1, h]

/-- Witness for C3 amended at a concrete disallowed wrapper. -/
theorem c3_splice_verbatim_witness :
    strLower "custom" ∉ ALLOWED_TAGS ∧
    sanitizeList ([] ++ .element "custom" []
        [HNode.element "img" [("onerror", "alert(1)")] []] :: []) =
      sanitizeList [] ++ [HNode.element "img" [("onerror", "alert(1)")] []] ++
        sanitizeList [] :=
  ⟨by decide, c3_splice_verbatim [] [] "custom" []
    [HNode.element "img" [("onerror", "alert(1)")] []] (by decide)⟩

/- ## Claim C5: anchor hardening -/

/-- C5 counterexample: in the text strategy the rel injection only fires
on anchor opening tags carrying a quoted href, so an anchor without an
href passes through without any rel attribute, refuting the claim that
every anchor in the output carries rel noopener noreferrer. -/
theorem c5_anchor_rel_cex :
    sanitizeHtmlRegex "<a>x</a>" = "<a>x</a>" := by decide

/-- Reading back an attribute just force-set always yields the set
value. -/
theorem getAttr_setAttr (l : List (String × String)) (n v : String) :
    getAttr (setAttr l n v) n = some v := by
  induction l with
  | nil => simp [setAttr, getAttr]
  | cons a rest ih =>
    obtain ⟨m, w⟩ := a
    by_cases h : m = n
    · simp [setAttr, getAttr, h]
    · simp [setAttr, getAttr, h, ih]

/-- C5 amended: every anchor element the tree walk processes has its rel
attribute force-set to noopener noreferrer (an attacker-supplied rel is
overridden); the text strategy instead only injects rel additively into
anchor tags matching its quoted-href pattern, leaving a pre-existing rel
in place, and anchors spliced out of removed disallowed wrappers are
emitted unprocessed. -/
theorem c5_anchor_rel_amended (tag : String) (attrs : List (String × String))
    (kids : List HNode) (h : strLower tag = "a") :
    sanitizeNode1 (.element tag attrs kids) =
      [.element tag
        (setAttr (attrPass (allowedAttrsFor "a") attrs) "rel"
          "noopener noreferrer")
        (sanitizeList kids)] ∧
    getAttr (setAttr (attrPass (allowedAttrsFor "a") attrs) "rel"
        "noopener noreferrer") "rel" = some "noopener noreferrer" ∧
    sanitizeHtmlRegex "<a href=\"/x\" rel=\"opener\">y</a>" =
      "<a href=\"/x\" rel=\"opener\" rel=\"noopener noreferrer\">y</a>" := by
  refine ⟨?_, getAttr_setAttr _ _ _, by decide⟩
  unfold sanitizeNode1
  rw [h]
  simp [show ("a" : String) ∈ ALLOWED_TAGS from by decide]

/-- Witness for C5 amended at a concrete anchor carrying an
attacker-supplied rel value. -/
theorem c5_anchor_rel_witness :
    strLower "a" = "a" ∧
    sanitizeNode1 (.element "a" [("rel", "opener")] []) =
      [.element "a"
        (setAttr (attrPass (allowedAttrsFor "a") [("rel", "opener")]) "rel"
          "noopener noreferrer")
        (sanitizeList [])] :=
  ⟨by decide, (c5_anchor_rel_amended "a" [("rel", "opener")] [] (by decide)).1⟩

/- ## Claim C6: comment removal -/

/-- C6 counterexample: the text strategy has no comment rule at all; on
the conditional-comment input of the claim only the inner script block is
excised and the comment markup remains in the output, refuting removal of
comments in both strategies. -/
theorem c6_comment_cex :
    sanitizeHtmlRegex "<!--[if IE]><script>evil()</script><![endif]-->" =
      "<!--[if IE]><![endif]-->" := by decide

/-- C6 amended: comment nodes are removed outright, with no content
splicing, by the tree strategy only; the text strategy leaves comment
markup in place (its script rule may still excise a terminated script
block inside the comment text). -/
theorem c6_comment_amended (s : String) (l : List HNode) :
    sanitizeList (.comment s :: l) = sanitizeList l ∧
    serializeList (sanitizeList
        [.comment "[if IE]><script>evil()</script><![endif]"]) = "" ∧
    sanitizeHtmlRegex "<!-- hello -->" = "<!-- hello -->" :=
  ⟨rfl, rfl, by decide⟩

/- ## Claim C7: data URIs in the tree strategy -/

/-- C7 counterexample: an img whose src is a data URI does not keep the
src attribute through the tree strategy; the attribute is removed. -/
theorem c7_data_src_cex :
    sanitizeList [.element "img" [("src", "data:image/png;base64,AAAA")] []] =
      [.element "img" [] []] := rfl

/-- C7 amended: the tree pipeline indeed has no data-specific rule, but
an img src holding a data URI is removed anyway: the URL constructor
parses it with protocol data:, which is not in the safe scheme set, so
isSafeUrl fails and the attribute loop drops the src; the img element
itself survives with the attribute stripped. -/
theorem c7_data_src_amended (v : String)
    (h1 : jsURL v = Except.ok ⟨"data:"⟩) (h2 : relStart v = false) :
    isSafeUrl v = false ∧
    sanitizeList [.element "img" [("src", v)] []] =
      [.element "img" [] []] := by
  have hsafe : isSafeUrl v = false := by
    unfold isSafeUrl
    rw [h1, h2]
    simp [SAFE_URL_SCHEMES]
  refine ⟨hsafe, ?_⟩
  have ha : attrPass (allowedAttrsFor "img") [("src", v)] = [] := by
    unfold attrPass
    rw [show strLower "src" = "src" from rfl]
    simp [hsafe, show ("src" : String) ∈ allowedAttrsFor "img" from by decide]
    rfl
  show sanitizeNode1 (.element "img" [("src", v)] []) ++ sanitizeList [] =
    [.element "img" [] []]
  unfold sanitizeNode1
  rw [show strLower "img" = "img" from rfl]
  simp [ha, show ("img" : String) ∈ ALLOWED_TAGS from by decide]
  rfl

/-- Witness for C7 amended at the concrete data URI of the claim. -/
theorem c7_data_src_witness :
    jsURL "data:image/png;base64,AAAA" = Except.ok ⟨"data:"⟩ ∧
    relStart "data:image/png;base64,AAAA" = false ∧
    isSafeUrl "data:image/png;base64,AAAA" = false ∧
    sanitizeList
        [.element "img" [("src", "data:image/png;base64,AAAA")] []] =
      [.element "img" [] []] := by
  have h := c7_data_src_amended "data:image/png;base64,AAAA" rfl rfl
  exact ⟨rfl, rfl, h.1, h.2⟩

/- ## Claim C10: unterminated script blocks -/

/-- A case-insensitive occurrence inside a dropped-front suffix is an
occurrence in the whole list. -/
theorem ciContains_drop (pat : List Char) :
    ∀ (l : List Char) (n : Nat), ciContains pat (l.drop n) = true →
      ciContains pat l = true := by
  intro l
  induction l with
  | nil => intro n h; simpa using h
  | cons c rest ih =>
    intro n h
    cases n with
    | zero => simpa using h
    | succ m =>
      have h2 := ih m (by simpa using h)
      simp [ciContains, h2]

/-- A case-insensitive occurrence after dropWhile is an occurrence in the
whole list. -/
theorem ciContains_dropWhile (pat : List Char) (p : Char → Bool) :
    ∀ (l : List Char), ciContains pat (l.dropWhile p) = true →
      ciContains pat l = true := by
  intro l
  induction l with
  | nil => intro h; simpa using h
  | cons c rest ih =>
    intro h
    by_cases hc : p c = true
    · rw [List.dropWhile_cons_of_pos hc] at h
      have h2 := ih h
      simp [ciContains, h2]
    · rw [List.dropWhile_cons_of_neg (by simpa using hc)] at h
      exact h

/-- When the close-tag scan succeeds, the scanned span contains the close
tag case-insensitively. -/
theorem scanCloseF_contains (pat : List Char) :
    ∀ (fuel : Nat) (l r : List Char), scanCloseF pat fuel l = some r →
      ciContains ('<' :: pat) l = true := by
  intro fuel
  induction fuel with
  | zero => intro l r h; simp [scanCloseF] at h
  | succ fuel ih =>
    intro l r h
    cases l with
    | nil => simp [scanCloseF] at h
    | cons c rest =>
      by_cases hc : c = '<'
      · subst hc
        by_cases hp : ciStarts pat rest = true
        · have hh : ciStarts ('<' :: pat) ('<' :: rest) = true := by
            show ciStarts pat rest = true
            exact hp
          simp [ciContains, hh]
        · have hstep : scanCloseF pat (fuel + 1) ('<' :: rest) =
              scanCloseF pat fuel (rest.dropWhile (fun d => d != '<')) := by
            simp [scanCloseF, hp]
          rw [hstep] at h
          have h2 := ciContains_dropWhile _ _ _ (ih _ r h)
          simp [ciContains, h2]
      · simp [scanCloseF, hc] at h

/-- When the scanned text nowhere contains the close tag, the block
matcher cannot match. -/
theorem mBlock_none (openPat pat : List Char) (cs : List Char)
    (h : ciContains ('<' :: pat) cs = false) :
    mBlock openPat pat cs = none := by
  unfold mBlock
  by_cases ho : ciStarts openPat cs = true
  · by_cases hb : noWordNext (cs.drop openPat.length) = true
    · cases hsc : scanCloseF pat
          ((cs.drop openPat.length).dropWhile (fun d => d != '<')).length
          ((cs.drop openPat.length).dropWhile (fun d => d != '<')) with
      | none => simp [ho, hb, hsc]
      | some after =>
        exfalso
        have h1 := scanCloseF_contains _ _ _ _ hsc
        have h2 := ciContains_dropWhile _ _ _ h1
        have h3 := ciContains_drop _ _ _ h2
        rw [h3] at h
        cases h
    · simp [ho, hb]
  · simp [ho]

/-- When the input nowhere contains the close tag of the script block
pattern, the script-removal stage leaves every character in place. -/
theorem scanRepl_mScript_id :
    ∀ (fuel : Nat) (l : List Char),
      ciContains ('<' :: "/script>".data) l = false →
      scanRepl mScript fuel l = l := by
  intro fuel
  induction fuel with
  | zero => intro l _; rfl
  | succ fuel ih =>
    intro l h
    cases l with
    | nil => rfl
    | cons c rest =>
      have hm : mScript (c :: rest) = none := mBlock_none _ _ _ h
      have hrest : ciContains ('<' :: "/script>".data) rest = false := by
        have hsplit : ciContains ('<' :: "/script>".data) (c :: rest) =
            (ciStarts ('<' :: "/script>".data) (c :: rest) ||
              ciContains ('<' :: "/script>".data) rest) := rfl
        rw [hsplit] at h
        exact (Bool.or_eq_false_iff.mp h).2
      show (match mScript (c :: rest) with
        | some (rep, after) => rep ++ scanRepl mScript fuel after
        | none => c :: scanRepl mScript fuel rest) = c :: rest
      rw [hm, ih rest hrest]

/-- C10: when the input contains a script opening tag but no closing
script tag anywhere (case-insensitively), the script-block stage of the
text strategy does not fire, because its pattern only matches spans
terminated by a closing script tag; the opening tag and everything after
it stay in place, and the pipeline output is just the remaining stages
applied to the untouched input. -/
theorem c10_unterminated_script (s : String)
    (h1 : ciContains "<script".data s.data = true)
    (h2 : ciContains "</script>".data s.data = false) :
    stepScript s.data = s.data ∧
    sanitizeHtmlRegex s = String.mk (regexRest s.data) := by
  have hpat : ("</script>".data : List Char) = '<' :: "/script>".data := rfl
  have hid : stepScript s.data = s.data :=
    scanRepl_mScript_id _ _ (hpat ▸ h2)
  refine ⟨hid, ?_⟩
  unfold sanitizeHtmlRegex
  rw [hid]

/-- Witness for C10 at a concrete unterminated script input. -/
theorem c10_unterminated_script_witness :
    ciContains "<script".data "<script>alert(1)".data = true ∧
    ciContains "</script>".data "<script>alert(1)".data = false ∧
    stepScript "<script>alert(1)".data = "<script>alert(1)".data ∧
    sanitizeHtmlRegex "<script>alert(1)" =
      String.mk (regexRest "<script>alert(1)".data) := by
  have h := c10_unterminated_script "<script>alert(1)" (by decide) (by decide)
  exact ⟨by decide, by decide, h.1, h.2⟩

end Sanitize
